import Mathlib

/-!
Verification of the goboy emulator core: the cartridge memory-bank
controllers (MBC1, MBC2, MBC3, MBC5 from pkg/cart) and the execution
engine (interrupts, timers, stack and save-state flags from
pkg/gb/gameboy.go), shallowly embedded over Nat with explicit masking
for the Go fixed-width integer types (byte, uint16, uint32).

Bytes are Nat values < 0x100, 16-bit addresses Nat values < 0x10000;
each operation masks its inputs exactly where the Go types force the
width.  ROM/RAM/RTC buffers are lists of bytes, and reads/stores are
checked: an out-of-bounds index (a run-time panic in Go) surfaces as
none.
-/

namespace GoBoy

/-- Wrapping 16-bit subtraction, as performed on Go uint16 values
(intended for b ≤ 0x10000). -/
def wsub16 (a b : Nat) : Nat := (a % 0x10000 + 0x10000 - b) % 0x10000

/-- The Go builtin copy(dst, src): overwrite the first
min len dst, len src elements of dst with those of src. -/
def goCopy (dst src : List Nat) : List Nat :=
  src.take (min dst.length src.length) ++ dst.drop (min dst.length src.length)

/-- Checked list store: some with the element replaced when the index is
in bounds, none (a Go panic) otherwise. -/
def setChecked (l : List Nat) (i v : Nat) : Option (List Nat) :=
  if i < l.length then some (l.set i v) else none

/-! ## MBC1 (pkg/cart/mbc1.go)

The BaseMBC fields (Rom, Ram, RomBank, RamEnabled) are flattened into
each variant structure. -/

structure MBC1 where
  rom : List Nat
  ram : List Nat
  ramEnabled : Bool
  romBank : Nat
  ramBank : Nat
  romBanking : Bool

/-- NewMBC1: RomBank starts at 1, 0x8000 bytes of RAM, remaining fields
at their Go zero values. -/
def MBC1.new (data : List Nat) : MBC1 :=
  { rom := data
    ram := List.replicate 0x8000 0
    ramEnabled := false
    romBank := 1
    ramBank := 0
    romBanking := false }

/-- MBC1.updateRomBankIfZero: bump the bank past the four values the
bank register cannot address. -/
def MBC1.updateRomBankIfZero (r : MBC1) : MBC1 :=
  if r.romBank = 0x00 ∨ r.romBank = 0x20 ∨ r.romBank = 0x40 ∨ r.romBank = 0x60 then
    { r with romBank := r.romBank + 1 }
  else r

/-- MBC1.WriteROM. -/
def MBC1.writeROM (r : MBC1) (address value : Nat) : MBC1 :=
  let address := address % 0x10000
  let value := value % 0x100
  if address < 0x2000 then
    if value &&& 0xF = 0xA then { r with ramEnabled := true }
    else if value &&& 0xF = 0x0 then { r with ramEnabled := false }
    else r
  else if address < 0x4000 then
    MBC1.updateRomBankIfZero
      { r with romBank := (r.romBank &&& 0xe0) ||| (value &&& 0x1f) }
  else if address < 0x6000 then
    if r.romBanking then
      MBC1.updateRomBankIfZero
        { r with romBank := (r.romBank &&& 0x1F) ||| (value &&& 0xe0) }
    else
      { r with ramBank := value &&& 0x3 }
  else if address < 0x8000 then
    let romBanking := value &&& 0x1 == 0x00
    if romBanking then { r with romBanking := romBanking, ramBank := 0 }
    else { r with romBanking := romBanking, romBank := r.romBank &&& 0x1F }
  else r

/-- MBC1.Read: the index arithmetic is Go uint32 arithmetic, hence the
mod 2^32. -/
def MBC1.read (r : MBC1) (address : Nat) : Option Nat :=
  let address := address % 0x10000
  if address < 0x4000 then r.rom[address]?
  else if address < 0x8000 then
    r.rom[(wsub16 address 0x4000 + r.romBank * 0x4000) % 0x100000000]?
  else
    r.ram[(0x2000 * r.ramBank + wsub16 address 0xA000) % 0x100000000]?

/-- MBC1.WriteRAM: a no-op while RAM is disabled; an out-of-bounds store
is none. -/
def MBC1.writeRAM (r : MBC1) (address value : Nat) : Option MBC1 :=
  let address := address % 0x10000
  let value := value % 0x100
  if r.ramEnabled then
    (setChecked r.ram ((0x2000 * r.ramBank + wsub16 address 0xA000) % 0x100000000) value).map
      fun ram => { r with ram := ram }
  else some r

/-- States reachable from NewMBC1 through the memory-mapped write
interface. -/
inductive MBC1.Reachable (rom : List Nat) : MBC1 → Prop where
  | init : MBC1.Reachable rom (MBC1.new rom)
  | writeROM {r} (address value : Nat) :
      MBC1.Reachable rom r → MBC1.Reachable rom (r.writeROM address value)
  | writeRAM {r r'} (address value : Nat) :
      MBC1.Reachable rom r → r.writeRAM address value = some r' → MBC1.Reachable rom r'

/-! ## MBC2 (pkg/cart/mbc2.go) -/

structure MBC2 where
  rom : List Nat
  ram : List Nat
  ramEnabled : Bool
  romBank : Nat

/-- NewMBC2: RomBank starts at 1 and RAM is 0x2000 bytes. -/
def MBC2.new (data : List Nat) : MBC2 :=
  { rom := data
    ram := List.replicate 0x2000 0
    ramEnabled := false
    romBank := 1 }

/-- MBC2.WriteROM: the two write regions are distinguished by address
bit 8. -/
def MBC2.writeROM (r : MBC2) (address value : Nat) : MBC2 :=
  let address := address % 0x10000
  let value := value % 0x100
  if address < 0x2000 then
    if address &&& 0x100 = 0 then
      if value &&& 0xF = 0xA then { r with ramEnabled := true }
      else if value &&& 0xF = 0x0 then { r with ramEnabled := false }
      else r
    else r
  else if address < 0x4000 then
    if address &&& 0x100 = 0x100 then
      let romBank := value &&& 0xF
      { r with romBank :=
          if romBank = 0x00 ∨ romBank = 0x20 ∨ romBank = 0x40 ∨ romBank = 0x60 then
            romBank + 1
          else romBank }
    else r
  else r

/-- MBC2.Read. -/
def MBC2.read (r : MBC2) (address : Nat) : Option Nat :=
  let address := address % 0x10000
  if address < 0x4000 then r.rom[address]?
  else if address < 0x8000 then
    r.rom[(wsub16 address 0x4000 + r.romBank * 0x4000) % 0x100000000]?
  else r.ram[wsub16 address 0xA000]?

/-- MBC2.WriteRAM: stores only the low nibble of the value. -/
def MBC2.writeRAM (r : MBC2) (address value : Nat) : Option MBC2 :=
  let address := address % 0x10000
  let value := value % 0x100
  if r.ramEnabled then
    (setChecked r.ram (wsub16 address 0xA000) (value &&& 0xF)).map
      fun ram => { r with ram := ram }
  else some r

/-- States reachable from NewMBC2 through the memory-mapped write
interface. -/
inductive MBC2.Reachable (rom : List Nat) : MBC2 → Prop where
  | init : MBC2.Reachable rom (MBC2.new rom)
  | writeROM {r} (address value : Nat) :
      MBC2.Reachable rom r → MBC2.Reachable rom (r.writeROM address value)
  | writeRAM {r r'} (address value : Nat) :
      MBC2.Reachable rom r → r.writeRAM address value = some r' → MBC2.Reachable rom r'

/-! ## MBC3 (pkg/cart/mbc3.go) -/

structure MBC3 where
  rom : List Nat
  ram : List Nat
  ramEnabled : Bool
  romBank : Nat
  ramBank : Nat
  rtc : List Nat
  latchedRtc : List Nat
  latched : Bool

/-- NewMBC3: RomBank 1, 0x8000 bytes of RAM, 16-byte live and latched
RTC register files. -/
def MBC3.new (data : List Nat) : MBC3 :=
  { rom := data
    ram := List.replicate 0x8000 0
    ramEnabled := false
    romBank := 1
    ramBank := 0
    rtc := List.replicate 0x10 0
    latchedRtc := List.replicate 0x10 0
    latched := false }

/-- MBC3.WriteROM.  Note the RAM-bank/RTC-select register keeps the full
byte unmasked, and that the value-0x00 write performs the Go call
copy(r.Rtc, r.LatchedRtc), i.e. it overwrites the live RTC file with
the latched one. -/
def MBC3.writeROM (r : MBC3) (address value : Nat) : MBC3 :=
  let address := address % 0x10000
  let value := value % 0x100
  if address < 0x2000 then
    { r with ramEnabled := value &&& 0xA != 0 }
  else if address < 0x4000 then
    let romBank := value &&& 0x7F
    { r with romBank := if romBank = 0x00 then romBank + 1 else romBank }
  else if address < 0x6000 then
    { r with ramBank := value }
  else if address < 0x8000 then
    if value = 0x1 then { r with latched := false }
    else if value = 0x0 then
      { r with latched := true, rtc := goCopy r.rtc r.latchedRtc }
    else r
  else r

/-- MBC3.Read: a RAM bank value of 4 or more selects an RTC register
(the latched file while latched, else the live one). -/
def MBC3.read (r : MBC3) (address : Nat) : Option Nat :=
  let address := address % 0x10000
  if address < 0x4000 then r.rom[address]?
  else if address < 0x8000 then
    r.rom[(wsub16 address 0x4000 + r.romBank * 0x4000) % 0x100000000]?
  else if 0x4 ≤ r.ramBank then
    if r.latched then r.latchedRtc[r.ramBank]? else r.rtc[r.ramBank]?
  else
    r.ram[(0x2000 * r.ramBank + wsub16 address 0xA000) % 0x100000000]?

/-- MBC3.WriteRAM: writes the live RTC file when an RTC register is
selected, regardless of the latch flag. -/
def MBC3.writeRAM (r : MBC3) (address value : Nat) : Option MBC3 :=
  let address := address % 0x10000
  let value := value % 0x100
  if r.ramEnabled then
    if 0x4 ≤ r.ramBank then
      (setChecked r.rtc r.ramBank value).map fun rtc => { r with rtc := rtc }
    else
      (setChecked r.ram ((0x2000 * r.ramBank + wsub16 address 0xA000) % 0x100000000) value).map
        fun ram => { r with ram := ram }
  else some r

/-- States reachable from NewMBC3 through the memory-mapped write
interface. -/
inductive MBC3.Reachable (rom : List Nat) : MBC3 → Prop where
  | init : MBC3.Reachable rom (MBC3.new rom)
  | writeROM {r} (address value : Nat) :
      MBC3.Reachable rom r → MBC3.Reachable rom (r.writeROM address value)
  | writeRAM {r r'} (address value : Nat) :
      MBC3.Reachable rom r → r.writeRAM address value = some r' → MBC3.Reachable rom r'

/-! ## MBC5 (pkg/cart/mbc2.go, second half) -/

structure MBC5 where
  rom : List Nat
  ram : List Nat
  ramEnabled : Bool
  romBank : Nat
  ramBank : Nat

/-- NewMBC5: RomBank 1 and 0x20000 bytes of RAM. -/
def MBC5.new (data : List Nat) : MBC5 :=
  { rom := data
    ram := List.replicate 0x20000 0
    ramEnabled := false
    romBank := 1
    ramBank := 0 }

/-- MBC5.WriteROM: the 9-bit ROM bank is split over two regions; there
is no bump rule for a computed bank of 0. -/
def MBC5.writeROM (r : MBC5) (address value : Nat) : MBC5 :=
  let address := address % 0x10000
  let value := value % 0x100
  if address < 0x2000 then
    if value &&& 0xF = 0xA then { r with ramEnabled := true }
    else if value &&& 0xF = 0x0 then { r with ramEnabled := false }
    else r
  else if address < 0x3000 then
    { r with romBank := (r.romBank &&& 0x100) ||| value }
  else if address < 0x4000 then
    { r with romBank := (r.romBank &&& 0xFF) ||| ((value &&& 0x01) <<< 8) }
  else if address < 0x6000 then
    { r with ramBank := value &&& 0xF }
  else r

/-- MBC5.Read. -/
def MBC5.read (r : MBC5) (address : Nat) : Option Nat :=
  let address := address % 0x10000
  if address < 0x4000 then r.rom[address]?
  else if address < 0x8000 then
    r.rom[(wsub16 address 0x4000 + r.romBank * 0x4000) % 0x100000000]?
  else
    r.ram[(0x2000 * r.ramBank + wsub16 address 0xA000) % 0x100000000]?

/-- MBC5.WriteRAM. -/
def MBC5.writeRAM (r : MBC5) (address value : Nat) : Option MBC5 :=
  let address := address % 0x10000
  let value := value % 0x100
  if r.ramEnabled then
    (setChecked r.ram ((0x2000 * r.ramBank + wsub16 address 0xA000) % 0x100000000) value).map
      fun ram => { r with ram := ram }
  else some r

/-- States reachable from NewMBC5 through the memory-mapped write
interface. -/
inductive MBC5.Reachable (rom : List Nat) : MBC5 → Prop where
  | init : MBC5.Reachable rom (MBC5.new rom)
  | writeROM {r} (address value : Nat) :
      MBC5.Reachable rom r → MBC5.Reachable rom (r.writeROM address value)
  | writeRAM {r r'} (address value : Nat) :
      MBC5.Reachable rom r → r.writeRAM address value = some r' → MBC5.Reachable rom r'

/-! ## Bank-controller invariants -/

/-- Field bounds maintained by the MBC1 write interface: the byte-wide
bank register, the 2-bit RAM bank, and, while in RAM-banking mode, a
ROM bank confined to its low 5 bits. -/
def MBC1.WF (rom : List Nat) (r : MBC1) : Prop :=
  r.rom = rom ∧ r.ram.length = 0x8000 ∧ r.romBank < 0x100 ∧ r.ramBank < 4 ∧
    (r.romBanking = false → r.romBank < 0x20)

/-- Field bounds maintained by the MBC2 write interface: a 4-bit,
never-zero ROM bank. -/
def MBC2.WF (rom : List Nat) (r : MBC2) : Prop :=
  r.rom = rom ∧ r.ram.length = 0x2000 ∧ r.romBank < 0x10 ∧ r.romBank ≠ 0

/-- Field bounds maintained by the MBC3 write interface: a 7-bit,
never-zero ROM bank and an unmasked byte-wide RAM-bank/RTC-select
register. -/
def MBC3.WF (rom : List Nat) (r : MBC3) : Prop :=
  r.rom = rom ∧ r.ram.length = 0x8000 ∧ r.rtc.length = 0x10 ∧
    r.latchedRtc.length = 0x10 ∧ r.romBank < 0x80 ∧ r.romBank ≠ 0 ∧
    r.ramBank < 0x100

/-- Field bounds maintained by the MBC5 write interface: a 9-bit ROM
bank and a 4-bit RAM bank. -/
def MBC5.WF (rom : List Nat) (r : MBC5) : Prop :=
  r.rom = rom ∧ r.ram.length = 0x20000 ∧ r.romBank < 0x200 ∧ r.ramBank < 0x10

/-! ## Execution engine (pkg/gb/gameboy.go)

Of the gb package only gameboy.go is among the sources; the CPU register
file (cpu.go), the Address Space (memory.go) and the bits helper package
it relies on are modelled from the spec where needed. -/

/-- Modelled from the spec: the bits helper package is missing from the
sources; a flag bit of a register byte is set when the corresponding
bit of its binary representation is 1. -/
def bitsTest (value bit : Nat) : Bool := (value >>> bit) &&& 1 == 1

/-- Modelled from the spec: bit-set on a register byte (the shifted bit
is truncated to byte width as Go byte arithmetic does). -/
def bitsSet (value bit : Nat) : Nat := value ||| ((1 <<< bit) % 0x100)

/-- Modelled from the spec: bit-clear on a register byte. -/
def bitsReset (value bit : Nat) : Nat := value &&& (0xFF ^^^ ((1 <<< bit) % 0x100))

/-- The machine state used by gameboy.go, restricted to the fields the
claims touch.  The CPU register file of cpu.go is flattened in (pc, sp
and the free-running divider).  Modelled from the spec: memory.go (the
Address Space) is not under src/; §3 says every address maps to exactly
one handler and §6 fixes the I/O register addresses (0xFF04 divider,
0xFF05 timer counter, 0xFF06 timer modulo, 0xFF07 timer control, 0xFF0F
interrupt flag, 0xFFFF interrupt enable), so the address space is
modelled as a total byte map over 16-bit addresses: Memory.Write stores
the byte, Memory.Read and Memory.ReadHighRam return it, and the HighRAM
array element i of gameboy.go is the map at 0xFF00 + i. -/
structure Gameboy where
  pc : Nat
  sp : Nat
  divider : Nat
  timerCounter : Nat
  interruptsEnabling : Bool
  interruptsOn : Bool
  halted : Bool
  mem : Nat → Nat

/-- Memory.Write (modelled from the spec, see Gameboy): store a byte at
a 16-bit address. -/
def memWrite (gb : Gameboy) (address value : Nat) : Gameboy :=
  { gb with mem := fun a => if a = address % 0x10000 then value % 0x100 else gb.mem a }

/-- Memory.Read / Memory.ReadHighRam (modelled from the spec, see
Gameboy). -/
def memRead (gb : Gameboy) (address : Nat) : Nat := gb.mem (address % 0x10000)

/-- Gameboy.isClockEnabled: bit 2 of the timer-control register. -/
def Gameboy.isClockEnabled (gb : Gameboy) : Bool := bitsTest (gb.mem 0xFF07) 2

/-- Gameboy.getClockFreq: the low 2 bits of the timer-control register. -/
def Gameboy.getClockFreq (gb : Gameboy) : Nat := gb.mem 0xFF07 &&& 0x3

/-- Gameboy.getClockFreqCount: the cycle threshold for each frequency
field value. -/
def Gameboy.getClockFreqCount (gb : Gameboy) : Nat :=
  match gb.getClockFreq with
  | 0 => 1024
  | 1 => 16
  | 2 => 64
  | _ => 256

/-- Gameboy.dividerRegister: accumulate cycles and, upon reaching 255,
wrap and increment the visible divider register at 0xFF04. -/
def Gameboy.dividerRegister (gb : Gameboy) (cycles : Nat) : Gameboy :=
  let gb := { gb with divider := gb.divider + cycles }
  if 255 ≤ gb.divider then
    { memWrite gb 0xFF04 (gb.mem 0xFF04 + 1) with divider := gb.divider - 255 }
  else gb

/-- Gameboy.requestInterrupt: set a request bit in the interrupt-flag
register at 0xFF0F (the top three bits read as 1). -/
def Gameboy.requestInterrupt (gb : Gameboy) (interrupt : Nat) : Gameboy :=
  let req := gb.mem 0xFF0F ||| 0xE0
  let req := bitsSet req interrupt
  memWrite gb 0xFF0F req

/-- One firing of the timer threshold inside Gameboy.updateTimers: the
timer counter register at 0xFF05 increments, and on overflow from 0xFF
it is reloaded from the modulo register at 0xFF06 and the Timer
interrupt (line 2) is requested. -/
def Gameboy.timaTick (gb : Gameboy) : Gameboy :=
  let tima := gb.mem 0xFF05
  if tima = 0xFF then
    (memWrite gb 0xFF05 (gb.mem 0xFF06)).requestInterrupt 2
  else
    memWrite gb 0xFF05 (tima + 1)

/-- The for-loop of Gameboy.updateTimers.  The loop condition of the
source is timerCounter ≥ freq; the conjunct 0 < freq only makes the
recursion well-founded and always holds since getClockFreqCount is one
of 16, 64, 256, 1024. -/
def Gameboy.timerLoop (gb : Gameboy) (freq : Nat) : Gameboy :=
  if h : 0 < freq ∧ freq ≤ gb.timerCounter then
    Gameboy.timerLoop (Gameboy.timaTick { gb with timerCounter := gb.timerCounter - freq }) freq
  else gb
termination_by gb.timerCounter
decreasing_by
  simp only [Gameboy.timaTick, Gameboy.requestInterrupt, memWrite]
  split <;> simp <;> omega

/-- Gameboy.updateTimers. -/
def Gameboy.updateTimers (gb : Gameboy) (cycles : Nat) : Gameboy :=
  let gb := gb.dividerRegister cycles
  if gb.isClockEnabled then
    let gb := { gb with timerCounter := gb.timerCounter + cycles }
    gb.timerLoop gb.getClockFreqCount
  else gb

/-- The interruptAddresses map: fixed jump targets of the five
interrupt lines (a missing key reads as the Go zero value). -/
def interruptAddresses (interrupt : Nat) : Nat :=
  match interrupt with
  | 0 => 0x40
  | 1 => 0x48
  | 2 => 0x50
  | 3 => 0x58
  | 4 => 0x60
  | _ => 0

/-- Gameboy.pushStack: high byte at SP−1, low byte at SP−2, then SP
decrements by 2 (16-bit wrapping). -/
def Gameboy.pushStack (gb : Gameboy) (address : Nat) : Gameboy :=
  let sp := gb.sp
  let gb := memWrite gb (wsub16 sp 1) ((address &&& 0xFF00) >>> 8)
  let gb := memWrite gb (wsub16 sp 2) (address &&& 0xFF)
  { gb with sp := wsub16 gb.sp 2 }

/-- Gameboy.popStack: low byte at SP, high byte at SP+1, combined
little-endian; SP increments by 2. -/
def Gameboy.popStack (gb : Gameboy) : Gameboy × Nat :=
  let sp := gb.sp
  let byte1 := memRead gb sp
  let byte2 := (memRead gb (sp + 1)) <<< 8
  ({ gb with sp := (gb.sp + 2) % 0x10000 }, byte1 ||| byte2)

/-- Gameboy.serviceInterrupt: when the CPU was halted with interrupts
off it is merely un-halted; otherwise the request bit is cleared, the
program counter pushed and redirected, and both flags cleared. -/
def Gameboy.serviceInterrupt (gb : Gameboy) (interrupt : Nat) : Gameboy :=
  if !gb.interruptsOn && gb.halted then
    { gb with halted := false }
  else
    let gb := { gb with interruptsOn := false, halted := false }
    let req := bitsReset (memRead gb 0xFF0F) interrupt
    let gb := memWrite gb 0xFF0F req
    let gb := gb.pushStack gb.pc
    { gb with pc := interruptAddresses interrupt }

/-- The scan loop of Gameboy.doInterrupts, recursing on the number of
lines left to inspect so that it evaluates structurally: from line i
with left lines remaining, the first line that is both requested and
enabled, lowest first. -/
def scanInterrupts (req enabled : Nat) (i : Nat) : Nat → Option Nat
  | 0 => none
  | left + 1 =>
    if bitsTest req i && bitsTest enabled i then some i
    else scanInterrupts req enabled (i + 1) left

/-- The scan loop of Gameboy.doInterrupts: for i = 0; i < 5; i++ over
the five interrupt lines. -/
def findInterruptFrom (req enabled i : Nat) : Option Nat :=
  scanInterrupts req enabled i (5 - i)

/-- Gameboy.doInterrupts: promote a pending enable, or service the
first requested-and-enabled line for 20 cycles. -/
def Gameboy.doInterrupts (gb : Gameboy) : Gameboy × Nat :=
  if gb.interruptsEnabling then
    ({ gb with interruptsOn := true, interruptsEnabling := false }, 0)
  else if !gb.interruptsOn && !gb.halted then (gb, 0)
  else
    let req := gb.mem 0xFF0F ||| 0xE0
    let enabled := gb.mem 0xFFFF
    if 0 < req then
      match findInterruptFrom req enabled 0 with
      | some i => (gb.serviceInterrupt i, 20)
      | none => (gb, 0)
    else (gb, 0)

/-- The interrupt/halt flag byte exactly as Gameboy.SaveState packs it:
bit 0 for pending-enable, bit 1 for interrupts-on, and — as written in
the source — mask 3 (bits 0 and 1) ORed in when halted. -/
def packFlags (interruptsEnabling interruptsOn halted : Bool) : Nat :=
  let ints := if interruptsEnabling then 1 else 0
  let ints := if interruptsOn then ints ||| 2 else ints
  if halted then ints ||| 3 else ints

/-- The flag byte exactly as Gameboy.LoadState unpacks it: bit 0 for
pending-enable, bit 1 for interrupts-on, bit 2 for halted. -/
def unpackFlags (ints : Nat) : Bool × Bool × Bool :=
  (ints &&& 1 != 0, ints &&& 2 != 0, ints &&& 4 != 0)

/-! ## Concrete states used as counterexample and witness inputs -/

/-- An MBC3 whose live RTC register 8 holds 5 while the latched file is
all zeroes, with RTC register 8 selected.  Reachable from NewMBC3 by
enabling RAM, selecting bank 8 and writing 5 through WriteRAM. -/
def c1State : MBC3 :=
  { rom := []
    ram := []
    ramEnabled := true
    romBank := 1
    ramBank := 8
    rtc := [0, 0, 0, 0, 0, 0, 0, 0, 5, 0, 0, 0, 0, 0, 0, 0]
    latchedRtc := List.replicate 0x10 0
    latched := false }

/-- A machine halted with interrupts off while V-Blank (line 0) is both
requested and enabled. -/
def c5State : Gameboy :=
  { pc := 0x1234
    sp := 0xFFFE
    divider := 0
    timerCounter := 0
    interruptsEnabling := false
    interruptsOn := false
    halted := true
    mem := fun a => if a = 0xFF0F then 1 else if a = 0xFFFF then 1 else 0 }

/-- A running machine with interrupts on and both V-Blank (bit 0) and
Timer (bit 2) requested and enabled. -/
def c6State : Gameboy :=
  { pc := 0x1234
    sp := 0xFFFE
    divider := 0
    timerCounter := 0
    interruptsEnabling := false
    interruptsOn := true
    halted := false
    mem := fun a => if a = 0xFF0F then 5 else if a = 0xFFFF then 5 else 0 }

/-- A machine with the timer enabled at frequency field 1 (threshold
16) and the timer counter register at 0xFF, about to overflow into the
modulo value 0x42. -/
def c8State : Gameboy :=
  { pc := 0
    sp := 0
    divider := 0
    timerCounter := 0
    interruptsEnabling := false
    interruptsOn := false
    halted := false
    mem := fun a =>
      if a = 0xFF07 then 5 else if a = 0xFF05 then 0xFF else
      if a = 0xFF06 then 0x42 else 0 }

/-- A quiescent machine with empty memory, used as a stack-op input. -/
def c7State : Gameboy :=
  { pc := 0
    sp := 0xFFFE
    divider := 0
    timerCounter := 0
    interruptsEnabling := false
    interruptsOn := false
    halted := false
    mem := fun _ => 0 }

/-! ## Arithmetic helper lemmas -/

theorem or_lt_256 {x y : Nat} (hx : x < 0x100) (hy : y < 0x100) : x ||| y < 0x100 := by
  have h := @Nat.or_lt_two_pow x y 8 (by simpa using hx) (by simpa using hy)
  simpa using h

theorem and_e0_eq_zero {x : Nat} (hx : x < 0x20) : x &&& 0xe0 = 0 := by
  interval_cases x <;> rfl

theorem bump_ne_zero {b : Nat} :
    (if b = 0x00 ∨ b = 0x20 ∨ b = 0x40 ∨ b = 0x60 then b + 1 else b) ≠ 0 := by
  split_ifs with h
  · omega
  · exact fun h0 => h (Or.inl h0)

theorem bump_lt_256 {b : Nat} (hb : b < 0x100) :
    (if b = 0x00 ∨ b = 0x20 ∨ b = 0x40 ∨ b = 0x60 then b + 1 else b) < 0x100 := by
  split_ifs with h
  · rcases h with h | h | h | h <;> omega
  · exact hb

theorem goCopy_length (dst src : List Nat) : (goCopy dst src).length = dst.length := by
  simp [goCopy]

/-! ## MBC1 invariant lemmas -/

theorem mbc1_wf_new (rom : List Nat) : MBC1.WF rom (MBC1.new rom) :=
  ⟨rfl, by show (List.replicate 0x8000 (0:Nat)).length = 0x8000; rw [List.length_replicate],
    by show (1:Nat) < 0x100; norm_num,
    by show (0:Nat) < 4; norm_num,
    fun _ => by show (1:Nat) < 0x20; norm_num⟩

theorem mbc1_wf_writeROM {rom : List Nat} {r : MBC1} (h : MBC1.WF rom r)
    (a v : Nat) : MBC1.WF rom (r.writeROM a v) := by
  obtain ⟨h1, h2, h3, h4, h5⟩ := h
  have h1f : v % 0x100 &&& 0x1f ≤ 0x1f := Nat.and_le_right
  have h3a : v % 0x100 &&& 0x3 ≤ 0x3 := Nat.and_le_right
  have he0 : r.romBank &&& 0xe0 ≤ 0xe0 := Nat.and_le_right
  have he0v : v % 0x100 &&& 0xe0 ≤ 0xe0 := Nat.and_le_right
  have h1F : r.romBank &&& 0x1F ≤ 0x1F := Nat.and_le_right
  simp only [MBC1.writeROM, MBC1.updateRomBankIfZero]
  split_ifs with c1 c2 c3 c4 c5 c6 c7 c8 c9 c10
  · exact ⟨h1, h2, h3, h4, h5⟩
  · exact ⟨h1, h2, h3, h4, h5⟩
  · exact ⟨h1, h2, h3, h4, h5⟩
  · -- bank-select write, computed bank bumped
    have hX : r.romBank &&& 0xe0 ||| v % 0x100 &&& 0x1f < 0x100 :=
      or_lt_256 (by omega) (by omega)
    refine ⟨h1, h2, ?_, h4, ?_⟩
    · show (r.romBank &&& 0xe0 ||| v % 0x100 &&& 0x1f) + 1 < 0x100
      rcases c5 with h | h | h | h <;> omega
    · show r.romBanking = false → (r.romBank &&& 0xe0 ||| v % 0x100 &&& 0x1f) + 1 < 0x20
      intro hmode
      have hz : r.romBank &&& 0xe0 = 0 := and_e0_eq_zero (h5 hmode)
      rw [hz, Nat.zero_or] at c5 ⊢
      rcases c5 with h | h | h | h <;> omega
  · -- bank-select write, no bump
    have hX : r.romBank &&& 0xe0 ||| v % 0x100 &&& 0x1f < 0x100 :=
      or_lt_256 (by omega) (by omega)
    refine ⟨h1, h2, hX, h4, ?_⟩
    show r.romBanking = false → r.romBank &&& 0xe0 ||| v % 0x100 &&& 0x1f < 0x20
    intro hmode
    have hz : r.romBank &&& 0xe0 = 0 := and_e0_eq_zero (h5 hmode)
    rw [hz, Nat.zero_or]
    omega
  · -- high-bit write in ROM-banking mode, bumped
    have hX : r.romBank &&& 0x1F ||| v % 0x100 &&& 0xe0 < 0x100 :=
      or_lt_256 (by omega) (by omega)
    refine ⟨h1, h2, ?_, h4, ?_⟩
    · show (r.romBank &&& 0x1F ||| v % 0x100 &&& 0xe0) + 1 < 0x100
      rcases c8 with h | h | h | h <;> omega
    · show r.romBanking = false → (r.romBank &&& 0x1F ||| v % 0x100 &&& 0xe0) + 1 < 0x20
      intro hmode
      rw [hmode] at c7
      exact absurd c7 (by simp)
  · -- high-bit write in ROM-banking mode, no bump
    have hX : r.romBank &&& 0x1F ||| v % 0x100 &&& 0xe0 < 0x100 :=
      or_lt_256 (by omega) (by omega)
    refine ⟨h1, h2, hX, h4, ?_⟩
    intro hmode
    rw [hmode] at c7
    exact absurd c7 (by simp)
  · -- RAM-bank select in RAM-banking mode
    refine ⟨h1, h2, h3, ?_, h5⟩
    show v % 0x100 &&& 0x3 < 4
    omega
  · -- mode toggle into ROM-banking mode
    refine ⟨h1, h2, h3, by show (0:Nat) < 4; omega, ?_⟩
    show (v % 0x100 &&& 0x1 == 0x00) = false → r.romBank < 0x20
    intro hmode
    rw [c10] at hmode
    exact Bool.noConfusion hmode
  · -- mode toggle into RAM-banking mode: only the low 5 bank bits survive
    refine ⟨h1, h2, by show r.romBank &&& 0x1F < 0x100; omega, h4, ?_⟩
    intro _
    show r.romBank &&& 0x1F < 0x20
    omega
  · exact ⟨h1, h2, h3, h4, h5⟩

theorem mbc1_wf_writeRAM {rom : List Nat} {r r' : MBC1}
    (h : MBC1.WF rom r) (a v : Nat) (hw : r.writeRAM a v = some r') :
    MBC1.WF rom r' := by
  obtain ⟨h1, h2, h3, h4, h5⟩ := h
  simp only [MBC1.writeRAM, setChecked] at hw
  split_ifs at hw with c1 c2
  · simp only [Option.map_some', Option.some.injEq] at hw
    subst hw
    exact ⟨h1, by simpa using h2, h3, h4, h5⟩
  · simp at hw
  · simp only [Option.some.injEq] at hw
    subst hw
    exact ⟨h1, h2, h3, h4, h5⟩

theorem mbc1_reachable_wf {rom : List Nat} {r : MBC1}
    (h : MBC1.Reachable rom r) : MBC1.WF rom r := by
  induction h with
  | init => exact mbc1_wf_new rom
  | writeROM a v _ ih => exact mbc1_wf_writeROM ih a v
  | writeRAM a v _ hw ih => exact mbc1_wf_writeRAM ih a v hw

/-! ## MBC2 invariant lemmas -/

theorem mbc2_wf_new (rom : List Nat) : MBC2.WF rom (MBC2.new rom) :=
  ⟨rfl, by show (List.replicate 0x2000 (0:Nat)).length = 0x2000; rw [List.length_replicate],
    by show (1:Nat) < 0x10; norm_num,
    by show (1:Nat) ≠ 0; norm_num⟩

theorem mbc2_wf_writeROM {rom : List Nat} {r : MBC2} (h : MBC2.WF rom r)
    (a v : Nat) : MBC2.WF rom (r.writeROM a v) := by
  obtain ⟨h1, h2, h3, h4⟩ := h
  have hF : v % 0x100 &&& 0xF ≤ 0xF := Nat.and_le_right
  simp only [MBC2.writeROM]
  split_ifs with c1 c2 c3 c4 c5 c6 c7
  · exact ⟨h1, h2, h3, h4⟩
  · exact ⟨h1, h2, h3, h4⟩
  · exact ⟨h1, h2, h3, h4⟩
  · exact ⟨h1, h2, h3, h4⟩
  · -- bank-select write, bumped
    refine ⟨h1, h2, ?_, ?_⟩
    · show (v % 0x100 &&& 0xF) + 1 < 0x10
      rcases c7 with h | h | h | h <;> omega
    · show (v % 0x100 &&& 0xF) + 1 ≠ 0
      omega
  · -- bank-select write, not bumped
    refine ⟨h1, h2, by show v % 0x100 &&& 0xF < 0x10; omega, ?_⟩
    show v % 0x100 &&& 0xF ≠ 0
    exact fun h0 => c7 (Or.inl h0)
  · exact ⟨h1, h2, h3, h4⟩
  · exact ⟨h1, h2, h3, h4⟩

theorem mbc2_wf_writeRAM {rom : List Nat} {r r' : MBC2}
    (h : MBC2.WF rom r) (a v : Nat) (hw : r.writeRAM a v = some r') :
    MBC2.WF rom r' := by
  obtain ⟨h1, h2, h3, h4⟩ := h
  simp only [MBC2.writeRAM, setChecked] at hw
  split_ifs at hw with c1 c2
  · simp only [Option.map_some', Option.some.injEq] at hw
    subst hw
    exact ⟨h1, by simpa using h2, h3, h4⟩
  · simp at hw
  · simp only [Option.some.injEq] at hw
    subst hw
    exact ⟨h1, h2, h3, h4⟩

theorem mbc2_reachable_wf {rom : List Nat} {r : MBC2}
    (h : MBC2.Reachable rom r) : MBC2.WF rom r := by
  induction h with
  | init => exact mbc2_wf_new rom
  | writeROM a v _ ih => exact mbc2_wf_writeROM ih a v
  | writeRAM a v _ hw ih => exact mbc2_wf_writeRAM ih a v hw

/-! ## MBC3 invariant lemmas -/

theorem mbc3_wf_new (rom : List Nat) : MBC3.WF rom (MBC3.new rom) :=
  ⟨rfl, by show (List.replicate 0x8000 (0:Nat)).length = 0x8000; rw [List.length_replicate],
    by show (List.replicate 0x10 (0:Nat)).length = 0x10; rw [List.length_replicate],
    by show (List.replicate 0x10 (0:Nat)).length = 0x10; rw [List.length_replicate],
    by show (1:Nat) < 0x80; norm_num,
    by show (1:Nat) ≠ 0; norm_num,
    by show (0:Nat) < 0x100; norm_num⟩

theorem mbc3_wf_writeROM {rom : List Nat} {r : MBC3} (h : MBC3.WF rom r)
    (a v : Nat) : MBC3.WF rom (r.writeROM a v) := by
  obtain ⟨h1, h2, h3, h4, h5, h6, h7⟩ := h
  have h7F : v % 0x100 &&& 0x7F ≤ 0x7F := Nat.and_le_right
  simp only [MBC3.writeROM]
  split_ifs with c1 c2 c3 c4 c5 c6 c7
  · exact ⟨h1, h2, h3, h4, h5, h6, h7⟩
  · -- bank-select write, bumped from zero
    refine ⟨h1, h2, h3, h4, ?_, ?_, h7⟩
    · show (v % 0x100 &&& 0x7F) + 1 < 0x80
      omega
    · show (v % 0x100 &&& 0x7F) + 1 ≠ 0
      omega
  · -- bank-select write, not bumped
    refine ⟨h1, h2, h3, h4, ?_, ?_, h7⟩
    · show v % 0x100 &&& 0x7F < 0x80
      omega
    · show v % 0x100 &&& 0x7F ≠ 0
      exact c3
  · -- RAM-bank / RTC-select write keeps the raw byte
    refine ⟨h1, h2, h3, h4, h5, h6, ?_⟩
    show v % 0x100 < 0x100
    exact Nat.mod_lt _ (by norm_num)
  · exact ⟨h1, h2, h3, h4, h5, h6, h7⟩
  · -- value 0x00: latch and overwrite the live RTC with the latched one
    refine ⟨h1, h2, ?_, h4, h5, h6, h7⟩
    show (goCopy r.rtc r.latchedRtc).length = 0x10
    rw [goCopy_length]
    exact h3
  · exact ⟨h1, h2, h3, h4, h5, h6, h7⟩
  · exact ⟨h1, h2, h3, h4, h5, h6, h7⟩

theorem mbc3_wf_writeRAM {rom : List Nat} {r r' : MBC3}
    (h : MBC3.WF rom r) (a v : Nat) (hw : r.writeRAM a v = some r') :
    MBC3.WF rom r' := by
  obtain ⟨h1, h2, h3, h4, h5, h6, h7⟩ := h
  simp only [MBC3.writeRAM, setChecked] at hw
  split_ifs at hw with c1 c2 c3 c4
  · simp only [Option.map_some', Option.some.injEq] at hw
    subst hw
    exact ⟨h1, h2, by simpa using h3, h4, h5, h6, h7⟩
  · simp at hw
  · simp only [Option.map_some', Option.some.injEq] at hw
    subst hw
    exact ⟨h1, by simpa using h2, h3, h4, h5, h6, h7⟩
  · simp at hw
  · simp only [Option.some.injEq] at hw
    subst hw
    exact ⟨h1, h2, h3, h4, h5, h6, h7⟩

theorem mbc3_reachable_wf {rom : List Nat} {r : MBC3}
    (h : MBC3.Reachable rom r) : MBC3.WF rom r := by
  induction h with
  | init => exact mbc3_wf_new rom
  | writeROM a v _ ih => exact mbc3_wf_writeROM ih a v
  | writeRAM a v _ hw ih => exact mbc3_wf_writeRAM ih a v hw

/-! ## MBC5 invariant lemmas -/

theorem mbc5_wf_new (rom : List Nat) : MBC5.WF rom (MBC5.new rom) :=
  ⟨rfl, by show (List.replicate 0x20000 (0:Nat)).length = 0x20000; rw [List.length_replicate],
    by show (1:Nat) < 0x200; norm_num,
    by show (0:Nat) < 0x10; norm_num⟩

theorem or_lt_512 {x y : Nat} (hx : x < 0x200) (hy : y < 0x200) : x ||| y < 0x200 := by
  have h := @Nat.or_lt_two_pow x y 9 (by simpa using hx) (by simpa using hy)
  simpa using h

theorem mbc5_wf_writeROM {rom : List Nat} {r : MBC5} (h : MBC5.WF rom r)
    (a v : Nat) : MBC5.WF rom (r.writeROM a v) := by
  obtain ⟨h1, h2, h3, h4⟩ := h
  have hv : v % 0x100 < 0x100 := Nat.mod_lt _ (by norm_num)
  have h100 : r.romBank &&& 0x100 ≤ 0x100 := Nat.and_le_right
  have hFF : r.romBank &&& 0xFF ≤ 0xFF := Nat.and_le_right
  have h01 : v % 0x100 &&& 0x01 ≤ 1 := Nat.and_le_right
  have hsh : (v % 0x100 &&& 0x01) <<< 8 = (v % 0x100 &&& 0x01) * 0x100 := by
    rw [Nat.shiftLeft_eq]
  simp only [MBC5.writeROM]
  split_ifs with c1 c2 c3 c4 c5 c6
  · exact ⟨h1, h2, h3, h4⟩
  · exact ⟨h1, h2, h3, h4⟩
  · exact ⟨h1, h2, h3, h4⟩
  · -- low 8 bank bits
    exact ⟨h1, h2, or_lt_512 (by omega) (by omega), h4⟩
  · -- bank bit 8
    exact ⟨h1, h2, or_lt_512 (by omega) (by omega), h4⟩
  · -- RAM bank
    refine ⟨h1, h2, h3, ?_⟩
    show v % 0x100 &&& 0xF < 0x10
    have := @Nat.and_le_right (v % 0x100) 0xF
    omega
  · exact ⟨h1, h2, h3, h4⟩

theorem mbc5_wf_writeRAM {rom : List Nat} {r r' : MBC5}
    (h : MBC5.WF rom r) (a v : Nat) (hw : r.writeRAM a v = some r') :
    MBC5.WF rom r' := by
  obtain ⟨h1, h2, h3, h4⟩ := h
  simp only [MBC5.writeRAM, setChecked] at hw
  split_ifs at hw with c1 c2
  · simp only [Option.map_some', Option.some.injEq] at hw
    subst hw
    exact ⟨h1, by simpa using h2, h3, h4⟩
  · simp at hw
  · simp only [Option.some.injEq] at hw
    subst hw
    exact ⟨h1, h2, h3, h4⟩

theorem mbc5_reachable_wf {rom : List Nat} {r : MBC5}
    (h : MBC5.Reachable rom r) : MBC5.WF rom r := by
  induction h with
  | init => exact mbc5_wf_new rom
  | writeROM a v _ ih => exact mbc5_wf_writeROM ih a v
  | writeRAM a v _ hw ih => exact mbc5_wf_writeRAM ih a v hw

theorem and_mask_eq_mod_32 (x : Nat) : x &&& 0x1F = x % 0x20 := by
  have h := Nat.and_pow_two_sub_one_eq_mod x 5
  norm_num at h
  exact h

/-! ## Claims about the banking controllers -/

/-- C9: in any state reachable through the write interface that is in
RAM-banking mode, a WriteROM to [0x6000,0x8000) with mode bit 0
switches MBC1 to ROM-banking mode, resets the RAM bank to 0, and leaves
the ROM bank equal to its prior value masked with 0x1F (which, in such
states, is the prior value itself). -/
theorem c9_mbc1_mode_toggle (rom : List Nat) (r : MBC1) (hr : MBC1.Reachable rom r)
    (hmode : r.romBanking = false) (a v : Nat)
    (ha1 : 0x6000 ≤ a) (ha2 : a < 0x8000) (hv : v < 0x100) (hz : v &&& 0x1 = 0) :
    (r.writeROM a v).romBanking = true ∧ (r.writeROM a v).ramBank = 0 ∧
    (r.writeROM a v).romBank = r.romBank &&& 0x1F ∧
    (r.writeROM a v).romBank = r.romBank := by
  have hlt : r.romBank < 0x20 := (mbc1_reachable_wf hr).2.2.2.2 hmode
  have ha : a % 0x10000 = a := Nat.mod_eq_of_lt (by omega)
  have hvv : v % 0x100 = v := Nat.mod_eq_of_lt hv
  simp only [MBC1.writeROM, ha, hvv]
  rw [if_neg (by omega), if_neg (by omega), if_neg (by omega), if_pos (by omega),
    if_pos (by simp [hz])]
  refine ⟨by simp [hz], rfl, ?_, rfl⟩
  show r.romBank = r.romBank &&& 0x1F
  rw [and_mask_eq_mod_32, Nat.mod_eq_of_lt hlt]

/-- C9 witness: the toggle applied to the initial MBC1 state. -/
theorem c9_mbc1_mode_toggle_witness :
    ((MBC1.new []).writeROM 0x6000 0).romBanking = true ∧
    ((MBC1.new []).writeROM 0x6000 0).ramBank = 0 ∧
    ((MBC1.new []).writeROM 0x6000 0).romBank = (MBC1.new []).romBank &&& 0x1F ∧
    ((MBC1.new []).writeROM 0x6000 0).romBank = (MBC1.new []).romBank :=
  c9_mbc1_mode_toggle [] (MBC1.new []) MBC1.Reachable.init rfl 0x6000 0
    (by norm_num) (by norm_num) (by norm_num) (by norm_num)

/-- C10: for MBC1, MBC5 and MBC2 with address bit 8 clear, a WriteROM
below 0x2000 enables RAM exactly when the value's low nibble is 0xA,
disables it exactly when the low nibble is 0x0, and otherwise changes
nothing; no other controller state is touched. -/
theorem c10_ram_enable_gate :
    (∀ (r : MBC1) (a v : Nat), a < 0x2000 → v < 0x100 →
      r.writeROM a v = { r with ramEnabled :=
        if v &&& 0xF = 0xA then true else if v &&& 0xF = 0x0 then false
        else r.ramEnabled }) ∧
    (∀ (r : MBC2) (a v : Nat), a < 0x2000 → a &&& 0x100 = 0 → v < 0x100 →
      r.writeROM a v = { r with ramEnabled :=
        if v &&& 0xF = 0xA then true else if v &&& 0xF = 0x0 then false
        else r.ramEnabled }) ∧
    (∀ (r : MBC5) (a v : Nat), a < 0x2000 → v < 0x100 →
      r.writeROM a v = { r with ramEnabled :=
        if v &&& 0xF = 0xA then true else if v &&& 0xF = 0x0 then false
        else r.ramEnabled }) := by
  refine ⟨?_, ?_, ?_⟩
  · intro r a v ha hv
    have ha' : a % 0x10000 = a := Nat.mod_eq_of_lt (by omega)
    have hv' : v % 0x100 = v := Nat.mod_eq_of_lt hv
    simp only [MBC1.writeROM, ha', hv']
    rw [if_pos ha]
    split_ifs <;> rfl
  · intro r a v ha hb hv
    have ha' : a % 0x10000 = a := Nat.mod_eq_of_lt (by omega)
    have hv' : v % 0x100 = v := Nat.mod_eq_of_lt hv
    simp only [MBC2.writeROM, ha', hv']
    rw [if_pos ha, if_pos hb]
    split_ifs <;> rfl
  · intro r a v ha hv
    have ha' : a % 0x10000 = a := Nat.mod_eq_of_lt (by omega)
    have hv' : v % 0x100 = v := Nat.mod_eq_of_lt hv
    simp only [MBC5.writeROM, ha', hv']
    rw [if_pos ha]
    split_ifs <;> rfl

/-- C10 witness: enabling RAM on the initial MBC1 state with value
0x0A. -/
theorem c10_ram_enable_gate_witness :
    (MBC1.new []).writeROM 0 0x0A = { MBC1.new [] with ramEnabled :=
      if 0x0A &&& 0xF = 0xA then true else if 0x0A &&& 0xF = 0x0 then false
      else (MBC1.new []).ramEnabled } :=
  c10_ram_enable_gate.1 (MBC1.new []) 0 0x0A (by norm_num) (by norm_num)

/-- C3 counterexample: the claim that the selected ROM bank is never 0
in any reachable state fails for two variants.  MBC5's bank-select
write has no bump rule, so writing 0 to [0x2000,0x3000) from the
initial state selects bank 0; and MBC1 reaches bank 0 by entering
ROM-banking mode, setting bank 0x80 through the two bank writes, and
toggling back to RAM-banking mode, which masks 0x80 with 0x1F. -/
theorem c3_rom_bank_zero_counterexample :
    ((MBC5.new []).writeROM 0x2000 0).romBank = 0 ∧
    (((((MBC1.new []).writeROM 0x6000 0).writeROM 0x4000 0x80).writeROM
        0x2000 0).writeROM 0x6000 1).romBank = 0 := by
  constructor <;> rfl

/-- C3 amended: MBC1's dedicated ROM-bank-select region [0x2000,0x4000)
never yields bank 0 (a computed 0 is bumped to 1), and MBC2 and MBC3
maintain a nonzero ROM bank in every state reachable through the write
interface; MBC5 has no such rule, and MBC1's mode toggle can yield
bank 0. -/
theorem c3_rom_bank_nonzero_amended :
    (∀ (r : MBC1) (a v : Nat), 0x2000 ≤ a % 0x10000 → a % 0x10000 < 0x4000 →
      (r.writeROM a v).romBank ≠ 0) ∧
    (∀ (rom : List Nat) (r : MBC2), MBC2.Reachable rom r → r.romBank ≠ 0) ∧
    (∀ (rom : List Nat) (r : MBC3), MBC3.Reachable rom r → r.romBank ≠ 0) := by
  refine ⟨?_, ?_, ?_⟩
  · intro r a v h1 h2
    simp only [MBC1.writeROM, MBC1.updateRomBankIfZero]
    rw [if_neg (by omega), if_pos h2]
    split_ifs with c
    · show (r.romBank &&& 0xe0 ||| v % 0x100 &&& 0x1f) + 1 ≠ 0
      omega
    · show r.romBank &&& 0xe0 ||| v % 0x100 &&& 0x1f ≠ 0
      exact fun h0 => c (Or.inl h0)
  · exact fun rom r h => (mbc2_reachable_wf h).2.2.2
  · exact fun rom r h => (mbc3_reachable_wf h).2.2.2.2.2.1

/-- C3 witness: the bump applied to a bank-select write of 0, and the
invariant at the initial MBC2/MBC3 states. -/
theorem c3_rom_bank_nonzero_amended_witness :
    ((MBC1.new []).writeROM 0x2000 0).romBank ≠ 0 ∧
    (MBC2.new []).romBank ≠ 0 ∧ (MBC3.new []).romBank ≠ 0 :=
  ⟨c3_rom_bank_nonzero_amended.1 (MBC1.new []) 0x2000 0 (by norm_num) (by norm_num),
   c3_rom_bank_nonzero_amended.2.1 [] _ MBC2.Reachable.init,
   c3_rom_bank_nonzero_amended.2.2 [] _ MBC3.Reachable.init⟩

/-- C1 counterexample: with live RTC register 8 holding 5 and an
all-zero latched file, writing 0x00 to 0x6000 arms the latch, but a
subsequent read of the selected RTC register returns 0 — the latched
file's old content — not the live register's value 5 at the moment of
the write: the Go code copies the latched snapshot over the live file,
not the live file into the snapshot. -/
theorem c1_latch_counterexample :
    c1State.rtc[c1State.ramBank]? = some 5 ∧
    (c1State.writeROM 0x6000 0x00).latched = true ∧
    MBC3.read (c1State.writeROM 0x6000 0x00) 0xA000 ≠ some 5 ∧
    MBC3.read (c1State.writeROM 0x6000 0x00) 0xA000 = some 0 := by
  refine ⟨rfl, rfl, by decide, rfl⟩

/-- C1 amended: a WriteROM of 0x00 to [0x6000,0x8000) sets the latch
flag and copies the latched snapshot into the live RTC file (leaving
the snapshot unchanged); while latched, reads of an RTC register (RAM
bank at least 4) return the latched snapshot's value, even after
further WriteRAM mutations of the live file; a following WriteROM of
0x01 clears the latch flag without changing either file. -/
theorem c1_rtc_latch_amended (r : MBC3) (a b c v : Nat)
    (ha1 : 0x6000 ≤ a) (ha2 : a < 0x8000)
    (hb1 : 0x8000 ≤ b) (hb2 : b < 0x10000)
    (hrb : 0x4 ≤ r.ramBank) :
    (r.writeROM a 0x00).latched = true ∧
    (r.writeROM a 0x00).latchedRtc = r.latchedRtc ∧
    (r.writeROM a 0x00).rtc = goCopy r.rtc r.latchedRtc ∧
    MBC3.read (r.writeROM a 0x00) b = r.latchedRtc[r.ramBank]? ∧
    (∀ r2, (r.writeROM a 0x00).writeRAM c v = some r2 →
      MBC3.read r2 b = r.latchedRtc[r.ramBank]?) ∧
    ((r.writeROM a 0x00).writeROM a 0x01).latched = false ∧
    ((r.writeROM a 0x00).writeROM a 0x01).latchedRtc = r.latchedRtc ∧
    ((r.writeROM a 0x00).writeROM a 0x01).rtc = goCopy r.rtc r.latchedRtc := by
  have ha : a % 0x10000 = a := Nat.mod_eq_of_lt (by omega)
  have hb : b % 0x10000 = b := Nat.mod_eq_of_lt hb2
  have hreadgen : ∀ (s : MBC3), s.ramBank = r.ramBank → s.latched = true →
      s.latchedRtc = r.latchedRtc → MBC3.read s b = r.latchedRtc[r.ramBank]? := by
    intro s hs1 hs2 hs3
    simp only [MBC3.read, hb]
    rw [if_neg (by omega), if_neg (by omega), if_pos (by rw [hs1]; exact hrb),
      if_pos hs2, hs3, hs1]
  have hw0 : r.writeROM a 0x00 =
      { r with latched := true, rtc := goCopy r.rtc r.latchedRtc } := by
    simp only [MBC3.writeROM, ha]
    rw [if_neg (by omega), if_neg (by omega), if_neg (by omega), if_pos (by omega),
      if_neg (by norm_num), if_pos (by norm_num)]
  rw [hw0]
  have hw1 : ({ r with latched := true, rtc := goCopy r.rtc r.latchedRtc } : MBC3).writeROM
      a 0x01 = { r with latched := false, rtc := goCopy r.rtc r.latchedRtc } := by
    simp only [MBC3.writeROM, ha]
    rw [if_neg (by omega), if_neg (by omega), if_neg (by omega), if_pos (by omega),
      if_pos (by norm_num)]
  rw [hw1]
  refine ⟨rfl, rfl, rfl, hreadgen _ rfl rfl rfl, ?_, rfl, rfl, rfl⟩
  intro r2 hw
  simp only [MBC3.writeRAM, setChecked] at hw
  split_ifs at hw with d1 d2
  · simp only [Option.map_some', Option.some.injEq] at hw
    subst hw
    exact hreadgen _ rfl rfl rfl
  · simp at hw
  · simp only [Option.some.injEq] at hw
    subst hw
    exact hreadgen _ rfl rfl rfl

/-- C1 witness: the amended latch behaviour on the concrete state whose
live RTC register 8 holds 5. -/
theorem c1_rtc_latch_amended_witness :
    MBC3.read (c1State.writeROM 0x6000 0x00) 0xA000 =
      c1State.latchedRtc[c1State.ramBank]? :=
  (c1_rtc_latch_amended c1State 0x6000 0xA000 0xA000 7 (by norm_num) (by norm_num)
    (by norm_num) (by norm_num) (by decide)).2.2.2.1

/-! ## Bit-level helper lemmas for the execution engine -/

theorem shiftRight_land (x y n : Nat) : (x &&& y) >>> n = (x >>> n) &&& (y >>> n) := by
  apply Nat.eq_of_testBit_eq
  intro j
  simp [Nat.testBit_shiftRight, Nat.testBit_and]

theorem combine_bytes (v : Nat) (hv : v < 0x10000) :
    (v &&& 0xFF) ||| (((v &&& 0xFF00) >>> 8) <<< 8) = v := by
  have h1 : v &&& 0xFF = v % 0x100 := by
    have h := Nat.and_pow_two_sub_one_eq_mod v 8
    norm_num at h
    exact h
  have h3 : (v >>> 8) &&& 0xFF = (v >>> 8) % 0x100 := by
    have h := Nat.and_pow_two_sub_one_eq_mod (v >>> 8) 8
    norm_num at h
    exact h
  have h4 : v >>> 8 = v / 0x100 := by
    rw [Nat.shiftRight_eq_div_pow]
  have h5 : (0xFF00 : Nat) >>> 8 = 0xFF := by decide
  rw [shiftRight_land, h5, h1, h3, h4, Nat.shiftLeft_eq,
    Nat.mul_comm (v / 0x100 % 0x100) (2 ^ 8), Nat.or_comm,
    ← Nat.mul_add_lt_is_or (by simpa using Nat.mod_lt v (show (0:Nat) < 0x100 by norm_num)) _]
  have e : (2:Nat) ^ 8 = 0x100 := by norm_num
  rw [e]
  omega

theorem or_E0_pos (x : Nat) : 0 < x ||| 0xE0 := by
  rcases Nat.eq_zero_or_pos (x ||| 0xE0) with h0 | h
  · have h5 : (x ||| 0xE0).testBit 5 = true := by
      rw [Nat.testBit_or]
      have he : Nat.testBit 0xE0 5 = true := by decide
      simp [he]
    rw [h0, Nat.zero_testBit] at h5
    exact Bool.noConfusion h5
  · exact h

theorem bitsTest_eq_testBit (v b : Nat) : bitsTest v b = Nat.testBit v b := by
  unfold bitsTest Nat.testBit
  rw [Nat.and_comm 1 (v >>> b)]
  have h : (v >>> b) &&& 1 ≤ 1 := Nat.and_le_right
  rcases Nat.le_one_iff_eq_zero_or_eq_one.mp h with h' | h' <;> rw [h'] <;> rfl

/-! ## Claims about the execution engine -/

/-- C4: the interrupt/halt flag byte does not round-trip through
SaveState and LoadState when halted is set: SaveState ORs mask 3 (bits
0 and 1) for halted while LoadState reads halted from bit 2, so saving
(pending-enable, interrupts-on, halted) = (false, false, true) restores
(true, true, false).  With halted clear the byte round-trips. -/
theorem c4_flag_byte_roundtrip_bug :
    unpackFlags (packFlags false false true) = (true, true, false) ∧
    (true, true, false) ≠ (false, false, true) ∧
    (∀ e o : Bool, unpackFlags (packFlags e o false) = (e, o, false)) := by
  refine ⟨rfl, by decide, by decide⟩

/-- C7: pushStack writes the high byte of v at SP−1 and the low byte at
SP−2 and decrements SP by 2; a following popStack combines the two
bytes little-endian into exactly v and restores SP. -/
theorem c7_stack_roundtrip (gb : Gameboy) (v : Nat)
    (hv : v < 0x10000) (hsp : gb.sp < 0x10000) :
    (gb.pushStack v).sp = wsub16 gb.sp 2 ∧
    (gb.pushStack v).mem (wsub16 gb.sp 1) = (v &&& 0xFF00) >>> 8 ∧
    (gb.pushStack v).mem (wsub16 gb.sp 2) = v &&& 0xFF ∧
    (gb.pushStack v).popStack.2 = v ∧
    (gb.pushStack v).popStack.1.sp = gb.sp := by
  have e1 : wsub16 gb.sp 1 % 0x10000 = wsub16 gb.sp 1 := by unfold wsub16; omega
  have e2 : wsub16 gb.sp 2 % 0x10000 = wsub16 gb.sp 2 := by unfold wsub16; omega
  have ne12 : wsub16 gb.sp 1 ≠ wsub16 gb.sp 2 := by unfold wsub16; omega
  have eS : (wsub16 gb.sp 2 + 1) % 0x10000 = wsub16 gb.sp 1 := by unfold wsub16; omega
  have eT : (wsub16 gb.sp 2 + 2) % 0x10000 = gb.sp := by unfold wsub16; omega
  have hhi : ((v &&& 0xFF00) >>> 8) % 0x100 = (v &&& 0xFF00) >>> 8 := by
    apply Nat.mod_eq_of_lt
    have hb : v &&& 0xFF00 ≤ 0xFF00 := Nat.and_le_right
    have hd : (v &&& 0xFF00) >>> 8 = (v &&& 0xFF00) / 0x100 := by
      rw [Nat.shiftRight_eq_div_pow]
    omega
  have hlo : (v &&& 0xFF) % 0x100 = v &&& 0xFF := by
    apply Nat.mod_eq_of_lt
    have hb : v &&& 0xFF ≤ 0xFF := Nat.and_le_right
    omega
  refine ⟨?_, ?_, ?_, ?_, ?_⟩
  · simp [Gameboy.pushStack, memWrite]
  · simp [Gameboy.pushStack, memWrite, e1, e2, ne12, hhi]
  · simp [Gameboy.pushStack, memWrite, e1, e2, hlo]
  · show ((gb.pushStack v).popStack).2 = v
    simp [Gameboy.pushStack, Gameboy.popStack, memWrite, memRead,
      e1, e2, ne12, eS, hhi, hlo]
    exact combine_bytes v hv
  · simp [Gameboy.pushStack, Gameboy.popStack, memWrite, eT]

/-- C7 witness: pushing 0x1234 at SP = 0xFFFE and popping it back. -/
theorem c7_stack_roundtrip_witness :
    (c7State.pushStack 0x1234).sp = wsub16 c7State.sp 2 ∧
    (c7State.pushStack 0x1234).mem (wsub16 c7State.sp 1) = (0x1234 &&& 0xFF00) >>> 8 ∧
    (c7State.pushStack 0x1234).mem (wsub16 c7State.sp 2) = 0x1234 &&& 0xFF ∧
    (c7State.pushStack 0x1234).popStack.2 = 0x1234 ∧
    (c7State.pushStack 0x1234).popStack.1.sp = c7State.sp :=
  c7_stack_roundtrip c7State 0x1234 (by norm_num) (by decide)

/-- C5 counterexample: halted with interrupts off and V-Blank both
requested and enabled, one interrupt evaluation un-halts the CPU and
reports 20 cycles but leaves the request bit set — serviceInterrupt
returns before clearing it — contradicting the claim that the serviced
line's request bit is cleared. -/
theorem c5_request_bit_counterexample :
    c5State.doInterrupts.2 = 20 ∧
    c5State.doInterrupts.1.halted = false ∧
    Nat.testBit (c5State.doInterrupts.1.mem 0xFF0F) 0 = true := by
  refine ⟨rfl, rfl, by decide⟩

/-- C5 amended: when the CPU is halted with interrupts off and some
line is requested and enabled, interrupt evaluation merely clears the
halted flag and reports 20 cycles; the request bits, program counter,
stack pointer and interrupt-enable flag are all left unchanged (no
jump, no stack push, no request-bit clear). -/
theorem c5_halted_unhalt_amended (gb : Gameboy)
    (h1 : gb.interruptsEnabling = false) (h2 : gb.interruptsOn = false)
    (h3 : gb.halted = true)
    (h4 : (findInterruptFrom (gb.mem 0xFF0F ||| 0xE0) (gb.mem 0xFFFF) 0).isSome) :
    gb.doInterrupts = ({ gb with halted := false }, 20) := by
  obtain ⟨i, hi⟩ := Option.isSome_iff_exists.mp h4
  simp only [Gameboy.doInterrupts]
  rw [if_neg (by simp [h1]), if_neg (by simp [h3]), if_pos (or_E0_pos _), hi]
  simp only [Gameboy.serviceInterrupt]
  rw [if_pos (by simp [h2, h3])]

/-- C5 witness: the amended behaviour on the concrete halted state. -/
theorem c5_halted_unhalt_amended_witness :
    c5State.doInterrupts = ({ c5State with halted := false }, 20) :=
  c5_halted_unhalt_amended c5State rfl rfl rfl (by decide)

/-- C6: with interrupts on, the CPU running, no pending-enable
promotion due, and both V-Blank (bit 0) and Timer (bit 2) requested and
enabled, one interrupt evaluation services exactly V-Blank: it clears
request bit 0, pushes the program counter (high byte at SP−1, low byte
at SP−2), sets the program counter to 0x40 and reports 20 cycles, while
the Timer request bit stays set for the next call.  The stack pointer
is assumed not to alias the interrupt-flag register. -/
theorem c6_interrupt_priority (gb : Gameboy)
    (h1 : gb.interruptsEnabling = false) (h2 : gb.interruptsOn = true)
    (h3 : gb.halted = false)
    (hIF : gb.mem 0xFF0F < 0x100)
    (hr0 : Nat.testBit (gb.mem 0xFF0F) 0 = true)
    (he0 : Nat.testBit (gb.mem 0xFFFF) 0 = true)
    (hr2 : Nat.testBit (gb.mem 0xFF0F) 2 = true)
    (he2 : Nat.testBit (gb.mem 0xFFFF) 2 = true)
    (hsp1 : wsub16 gb.sp 1 ≠ 0xFF0F) (hsp2 : wsub16 gb.sp 2 ≠ 0xFF0F) :
    gb.doInterrupts.2 = 20 ∧
    gb.doInterrupts.1.pc = 0x40 ∧
    gb.doInterrupts.1.interruptsOn = false ∧
    gb.doInterrupts.1.halted = false ∧
    Nat.testBit (gb.doInterrupts.1.mem 0xFF0F) 0 = false ∧
    Nat.testBit (gb.doInterrupts.1.mem 0xFF0F) 2 = true ∧
    gb.doInterrupts.1.sp = wsub16 gb.sp 2 ∧
    gb.doInterrupts.1.mem (wsub16 gb.sp 1) = (gb.pc &&& 0xFF00) >>> 8 ∧
    gb.doInterrupts.1.mem (wsub16 gb.sp 2) = gb.pc &&& 0xFF := by
  have m1 : wsub16 gb.sp 1 % 0x10000 = wsub16 gb.sp 1 := by unfold wsub16; omega
  have m2 : wsub16 gb.sp 2 % 0x10000 = wsub16 gb.sp 2 := by unfold wsub16; omega
  have mF : (0xFF0F : Nat) % 0x10000 = 0xFF0F := by norm_num
  have ne12 : wsub16 gb.sp 1 ≠ wsub16 gb.sp 2 := by unfold wsub16; omega
  have hmask : bitsReset (gb.mem 0xFF0F) 0 = gb.mem 0xFF0F &&& 0xFE := by
    have ea : ((1:Nat) <<< 0) % 0x100 = 1 := by decide
    have eb : (0xFF:Nat) ^^^ 1 = 0xFE := by decide
    rw [bitsReset, ea, eb]
  have hhi : ((gb.pc &&& 0xFF00) >>> 8) % 0x100 = (gb.pc &&& 0xFF00) >>> 8 := by
    apply Nat.mod_eq_of_lt
    have hb : gb.pc &&& 0xFF00 ≤ 0xFF00 := Nat.and_le_right
    have hd : (gb.pc &&& 0xFF00) >>> 8 = (gb.pc &&& 0xFF00) / 0x100 := by
      rw [Nat.shiftRight_eq_div_pow]
    omega
  have hlo : (gb.pc &&& 0xFF) % 0x100 = gb.pc &&& 0xFF := by
    apply Nat.mod_eq_of_lt
    have hb : gb.pc &&& 0xFF ≤ 0xFF := Nat.and_le_right
    omega
  have hb0 : (bitsTest (gb.mem 0xFF0F ||| 0xE0) 0 && bitsTest (gb.mem 0xFFFF) 0) = true := by
    rw [bitsTest_eq_testBit, bitsTest_eq_testBit, Nat.testBit_or, hr0, he0]
    rfl
  have hfind : findInterruptFrom (gb.mem 0xFF0F ||| 0xE0) (gb.mem 0xFFFF) 0 = some 0 := by
    show (if (bitsTest (gb.mem 0xFF0F ||| 0xE0) 0 && bitsTest (gb.mem 0xFFFF) 0) = true
          then some 0
          else scanInterrupts (gb.mem 0xFF0F ||| 0xE0) (gb.mem 0xFFFF) 1 4) = some 0
    rw [if_pos hb0]
  have hdo : gb.doInterrupts = (gb.serviceInterrupt 0, 20) := by
    simp only [Gameboy.doInterrupts]
    rw [if_neg (by simp [h1]), if_neg (by simp [h2]), if_pos (or_E0_pos _), hfind]
  have hsp1n : ¬((0xFF0F:Nat) = wsub16 gb.sp 1) := fun h => hsp1 h.symm
  have hsp2n : ¬((0xFF0F:Nat) = wsub16 gb.sp 2) := fun h => hsp2 h.symm
  have hmemF : (gb.serviceInterrupt 0).mem 0xFF0F = gb.mem 0xFF0F &&& 0xFE := by
    simp only [Gameboy.serviceInterrupt]
    rw [if_neg (by simp [h2])]
    simp only [Gameboy.pushStack, memWrite, memRead, m1, m2, mF, hsp1n, hsp2n,
      if_false, ite_false, ite_true, if_true]
    rw [hmask]
    apply Nat.mod_eq_of_lt
    have hb : gb.mem 0xFF0F &&& 0xFE ≤ 0xFE := Nat.and_le_right
    omega
  have hmem1 : (gb.serviceInterrupt 0).mem (wsub16 gb.sp 1) = (gb.pc &&& 0xFF00) >>> 8 := by
    simp only [Gameboy.serviceInterrupt]
    rw [if_neg (by simp [h2])]
    simp only [Gameboy.pushStack, memWrite, memRead, m1, m2, mF, ne12,
      if_false, ite_false, ite_true, if_true]
    exact hhi
  have hmem2 : (gb.serviceInterrupt 0).mem (wsub16 gb.sp 2) = gb.pc &&& 0xFF := by
    simp only [Gameboy.serviceInterrupt]
    rw [if_neg (by simp [h2])]
    simp only [Gameboy.pushStack, memWrite, memRead, m1, m2, mF,
      if_false, ite_false, ite_true, if_true]
    exact hlo
  have hbit0 : Nat.testBit (gb.mem 0xFF0F &&& 0xFE) 0 = false := by
    rw [Nat.testBit_and]
    have hc : Nat.testBit 0xFE 0 = false := by decide
    simp [hc]
  have hbit2 : Nat.testBit (gb.mem 0xFF0F &&& 0xFE) 2 = true := by
    rw [Nat.testBit_and, hr2]
    decide
  have hpcf : (gb.serviceInterrupt 0).pc = 0x40 := by
    simp only [Gameboy.serviceInterrupt]
    rw [if_neg (by simp [h2])]
    rfl
  have honf : (gb.serviceInterrupt 0).interruptsOn = false := by
    simp only [Gameboy.serviceInterrupt]
    rw [if_neg (by simp [h2])]
    rfl
  have hhaltf : (gb.serviceInterrupt 0).halted = false := by
    simp only [Gameboy.serviceInterrupt]
    rw [if_neg (by simp [h2])]
    rfl
  have hspf : (gb.serviceInterrupt 0).sp = wsub16 gb.sp 2 := by
    simp only [Gameboy.serviceInterrupt]
    rw [if_neg (by simp [h2])]
    rfl
  rw [hdo]
  exact ⟨rfl, hpcf, honf, hhaltf, by rw [hmemF]; exact hbit0,
    by rw [hmemF]; exact hbit2, hspf, hmem1, hmem2⟩

/-- C6 witness: both V-Blank and Timer pending on the concrete running
state with interrupts on. -/
theorem c6_interrupt_priority_witness :
    c6State.doInterrupts.2 = 20 ∧
    c6State.doInterrupts.1.pc = 0x40 ∧
    c6State.doInterrupts.1.interruptsOn = false ∧
    c6State.doInterrupts.1.halted = false ∧
    Nat.testBit (c6State.doInterrupts.1.mem 0xFF0F) 0 = false ∧
    Nat.testBit (c6State.doInterrupts.1.mem 0xFF0F) 2 = true ∧
    c6State.doInterrupts.1.sp = wsub16 c6State.sp 2 ∧
    c6State.doInterrupts.1.mem (wsub16 c6State.sp 1) = (c6State.pc &&& 0xFF00) >>> 8 ∧
    c6State.doInterrupts.1.mem (wsub16 c6State.sp 2) = c6State.pc &&& 0xFF :=
  c6_interrupt_priority c6State rfl rfl rfl (by decide) (by decide) (by decide)
    (by decide) (by decide) (by decide) (by decide)

/-! ## Timer helper lemmas -/

theorem timaTick_timerCounter (x : Gameboy) :
    (Gameboy.timaTick x).timerCounter = x.timerCounter := by
  simp only [Gameboy.timaTick, Gameboy.requestInterrupt, memWrite]
  split_ifs <;> rfl

theorem timaTick_mem05 (x : Gameboy) :
    (Gameboy.timaTick x).mem 0xFF05 =
      if x.mem 0xFF05 = 0xFF then x.mem 0xFF06 % 0x100
      else (x.mem 0xFF05 + 1) % 0x100 := by
  simp only [Gameboy.timaTick, Gameboy.requestInterrupt, memWrite]
  split_ifs with h <;> norm_num

theorem timaTick_testBit2 (x : Gameboy) (h : x.mem 0xFF05 = 0xFF) :
    Nat.testBit ((Gameboy.timaTick x).mem 0xFF0F) 2 = true := by
  simp only [Gameboy.timaTick, Gameboy.requestInterrupt, memWrite, bitsSet]
  rw [if_pos h]
  norm_num
  have h256 : (0x100 : Nat) = 2 ^ 8 := by norm_num
  rw [h256, Nat.testBit_mod_two_pow]
  simp only [Nat.testBit_or]
  have h4 : Nat.testBit 4 2 = true := by decide
  simp [h4]

theorem timerLoop_once (x : Gameboy) (f : Nat) (hpos : 0 < f)
    (htc : x.timerCounter = f) :
    x.timerLoop f = Gameboy.timaTick { x with timerCounter := 0 } := by
  rw [Gameboy.timerLoop, dif_pos ⟨hpos, by omega⟩]
  have h0 : ({ x with timerCounter := x.timerCounter - f } : Gameboy) =
      { x with timerCounter := 0 } := by
    rw [htc, Nat.sub_self]
  rw [h0, Gameboy.timerLoop, dif_neg ?_]
  rintro ⟨-, hle⟩
  rw [timaTick_timerCounter] at hle
  dsimp only at hle
  omega

theorem dividerRegister_mem (x : Gameboy) (c a : Nat) (ha : a ≠ 0xFF04) :
    (x.dividerRegister c).mem a = x.mem a := by
  have m4 : (0xFF04 : Nat) % 0x10000 = 0xFF04 := by norm_num
  simp only [Gameboy.dividerRegister, memWrite]
  split_ifs with h
  · dsimp only
    rw [m4, if_neg ha]
  · rfl

theorem dividerRegister_timerCounter (x : Gameboy) (c : Nat) :
    (x.dividerRegister c).timerCounter = x.timerCounter := by
  simp only [Gameboy.dividerRegister, memWrite]
  split_ifs <;> rfl

/-- C8: with the timer enabled and the internal counter at 0, advancing
the timers by exactly one threshold of the timer-control frequency
field (1024 cycles for field 0, 16 for 1, 64 for 2, 256 for 3) fires
the timer exactly once and leaves the internal counter at 0: the timer
counter register at 0xFF05 increments, unless it was 0xFF, in which
case it is reloaded from the modulo register at 0xFF06 and the Timer
interrupt request bit (line 2) is raised. -/
theorem c8_timer_threshold (gb : Gameboy)
    (hen : gb.isClockEnabled = true) (htc : gb.timerCounter = 0) :
    (gb.getClockFreq = 0 → gb.getClockFreqCount = 1024) ∧
    (gb.getClockFreq = 1 → gb.getClockFreqCount = 16) ∧
    (gb.getClockFreq = 2 → gb.getClockFreqCount = 64) ∧
    (gb.getClockFreq = 3 → gb.getClockFreqCount = 256) ∧
    (gb.updateTimers gb.getClockFreqCount).timerCounter = 0 ∧
    (gb.mem 0xFF05 ≠ 0xFF →
      (gb.updateTimers gb.getClockFreqCount).mem 0xFF05 = (gb.mem 0xFF05 + 1) % 0x100) ∧
    (gb.mem 0xFF05 = 0xFF →
      (gb.updateTimers gb.getClockFreqCount).mem 0xFF05 = gb.mem 0xFF06 % 0x100 ∧
      Nat.testBit ((gb.updateTimers gb.getClockFreqCount).mem 0xFF0F) 2 = true) := by
  have hfpos : 0 < gb.getClockFreqCount := by
    unfold Gameboy.getClockFreqCount
    split <;> norm_num
  have hdmem : ∀ a, a ≠ 0xFF04 →
      (gb.dividerRegister gb.getClockFreqCount).mem a = gb.mem a :=
    fun a ha => dividerRegister_mem gb _ a ha
  have h07 : (gb.dividerRegister gb.getClockFreqCount).mem 0xFF07 = gb.mem 0xFF07 :=
    hdmem 0xFF07 (by norm_num)
  have hen1 : (gb.dividerRegister gb.getClockFreqCount).isClockEnabled = true := by
    unfold Gameboy.isClockEnabled at hen ⊢
    rw [h07]
    exact hen
  have hfreq1 : ({ gb.dividerRegister gb.getClockFreqCount with
      timerCounter := (gb.dividerRegister gb.getClockFreqCount).timerCounter +
        gb.getClockFreqCount } : Gameboy).getClockFreqCount = gb.getClockFreqCount := by
    unfold Gameboy.getClockFreqCount Gameboy.getClockFreq
    show (match (gb.dividerRegister gb.getClockFreqCount).mem 0xFF07 &&& 0x3 with
      | 0 => 1024 | 1 => 16 | 2 => 64 | _ => 256) = _
    rw [h07]
  have hloop : gb.updateTimers gb.getClockFreqCount =
      Gameboy.timaTick { gb.dividerRegister gb.getClockFreqCount with timerCounter := 0 } := by
    simp only [Gameboy.updateTimers]
    rw [if_pos hen1, hfreq1]
    rw [timerLoop_once _ _ hfpos]
    show (gb.dividerRegister gb.getClockFreqCount).timerCounter +
        gb.getClockFreqCount = gb.getClockFreqCount
    rw [dividerRegister_timerCounter, htc]
    exact Nat.zero_add _
  have h05 : ({ gb.dividerRegister gb.getClockFreqCount with
      timerCounter := 0 } : Gameboy).mem 0xFF05 = gb.mem 0xFF05 :=
    hdmem 0xFF05 (by norm_num)
  have h06 : ({ gb.dividerRegister gb.getClockFreqCount with
      timerCounter := 0 } : Gameboy).mem 0xFF06 = gb.mem 0xFF06 :=
    hdmem 0xFF06 (by norm_num)
  refine ⟨?_, ?_, ?_, ?_, ?_, ?_, ?_⟩
  · intro h
    unfold Gameboy.getClockFreqCount
    rw [h]
  · intro h
    unfold Gameboy.getClockFreqCount
    rw [h]
  · intro h
    unfold Gameboy.getClockFreqCount
    rw [h]
  · intro h
    unfold Gameboy.getClockFreqCount
    rw [h]
  · rw [hloop, timaTick_timerCounter]
  · intro h
    rw [hloop, timaTick_mem05, h05, h06, if_neg h]
  · intro h
    refine ⟨?_, ?_⟩
    · rw [hloop, timaTick_mem05, h05, h06, if_pos h]
    · rw [hloop]
      exact timaTick_testBit2 _ (by rw [h05]; exact h)

/-- C8 witness: timer-control 5 (enabled, frequency field 1, threshold
16) with the counter register at 0xFF and modulo 0x42. -/
theorem c8_timer_threshold_witness :
    (c8State.getClockFreq = 1 → c8State.getClockFreqCount = 16) ∧
    (c8State.updateTimers c8State.getClockFreqCount).timerCounter = 0 ∧
    (c8State.mem 0xFF05 = 0xFF →
      (c8State.updateTimers c8State.getClockFreqCount).mem 0xFF05 =
        c8State.mem 0xFF06 % 0x100 ∧
      Nat.testBit ((c8State.updateTimers c8State.getClockFreqCount).mem 0xFF0F) 2 = true) := by
  have h := c8_timer_threshold c8State (by decide) rfl
  exact ⟨h.2.1, h.2.2.2.2.1, h.2.2.2.2.2.2⟩

/-! ## Bounds of the banking-controller address computations -/

theorem isSome_of_lt {l : List Nat} {i : Nat} (h : i < l.length) :
    (l[i]?).isSome = true := by
  rw [List.getElem?_eq_getElem h]
  rfl

/-- C2 counterexample: the MBC3 RAM-bank/RTC-select register is stored
unmasked, so writing 0x10 to [0x4000,0x6000) and then accessing the RAM
window indexes the 16-entry RTC files out of bounds (a Go run-time
panic, surfaced here as none) for both Read and WriteRAM. -/
theorem c2_mbc3_rtc_out_of_bounds_counterexample :
    MBC3.read (MBC3.writeROM (MBC3.writeROM (MBC3.new []) 0x0000 0x0A) 0x4000 0x10)
      0xA000 = none ∧
    MBC3.writeRAM (MBC3.writeROM (MBC3.writeROM (MBC3.new []) 0x0000 0x0A) 0x4000 0x10)
      0xA000 1 = none := by
  constructor <;> rfl

/-- C2 amended: for every state reachable through the write interface
and every address in the windows the Address Space delegates (ROM reads
below 0x8000, RAM operations in [0xA000,0xC000)), all bank and index
computations stay inside the ROM, RAM and RTC arrays — given a ROM
sized to the variant's full bank-field width — with one exception: the
MBC3 RAM-bank/RTC-select register is stored unmasked, so its RTC
accesses are in bounds only when the selected value is at most 0xF. -/
theorem c2_bank_masking_amended :
    (∀ (rom : List Nat) (r : MBC1), MBC1.Reachable rom r → 0x400000 ≤ rom.length →
      ∀ a v, (a < 0x8000 → (r.read a).isSome = true) ∧
        (0xA000 ≤ a → a < 0xC000 →
          (r.read a).isSome = true ∧ (r.writeRAM a v).isSome = true)) ∧
    (∀ (rom : List Nat) (r : MBC2), MBC2.Reachable rom r → 0x40000 ≤ rom.length →
      ∀ a v, (a < 0x8000 → (r.read a).isSome = true) ∧
        (0xA000 ≤ a → a < 0xC000 →
          (r.read a).isSome = true ∧ (r.writeRAM a v).isSome = true)) ∧
    (∀ (rom : List Nat) (r : MBC5), MBC5.Reachable rom r → 0x800000 ≤ rom.length →
      ∀ a v, (a < 0x8000 → (r.read a).isSome = true) ∧
        (0xA000 ≤ a → a < 0xC000 →
          (r.read a).isSome = true ∧ (r.writeRAM a v).isSome = true)) ∧
    (∀ (rom : List Nat) (r : MBC3), MBC3.Reachable rom r → 0x200000 ≤ rom.length →
      ∀ a v, (a < 0x8000 → (r.read a).isSome = true) ∧
        (0xA000 ≤ a → a < 0xC000 → r.ramBank ≤ 0xF →
          (r.read a).isSome = true ∧ (r.writeRAM a v).isSome = true)) := by
  refine ⟨?_, ?_, ?_, ?_⟩
  · -- MBC1
    intro rom r hr hlen a v
    obtain ⟨hrom, hram, hbank, hrbank, -⟩ := mbc1_reachable_wf hr
    rw [← hrom] at hlen
    constructor
    · intro ha
      have hmod : a % 0x10000 = a := Nat.mod_eq_of_lt (by omega)
      simp only [MBC1.read, wsub16, hmod]
      split_ifs with h4
      · exact isSome_of_lt (by omega)
      · exact isSome_of_lt (by omega)
    · intro ha1 ha2
      have hmod : a % 0x10000 = a := Nat.mod_eq_of_lt (by omega)
      have hidx : (0x2000 * r.ramBank + (a + 0x10000 - 0xA000) % 0x10000) %
          0x100000000 < r.ram.length := by
        rw [hram]
        omega
      refine ⟨?_, ?_⟩
      · simp only [MBC1.read, wsub16, hmod]
        rw [if_neg (by omega), if_neg (by omega)]
        exact isSome_of_lt hidx
      · simp only [MBC1.writeRAM, wsub16, hmod, setChecked]
        split_ifs with he
        · simp
        · simp
  · -- MBC2
    intro rom r hr hlen a v
    obtain ⟨hrom, hram, hbank, -⟩ := mbc2_reachable_wf hr
    rw [← hrom] at hlen
    constructor
    · intro ha
      have hmod : a % 0x10000 = a := Nat.mod_eq_of_lt (by omega)
      simp only [MBC2.read, wsub16, hmod]
      split_ifs with h4
      · exact isSome_of_lt (by omega)
      · exact isSome_of_lt (by omega)
    · intro ha1 ha2
      have hmod : a % 0x10000 = a := Nat.mod_eq_of_lt (by omega)
      have hidx : (a + 0x10000 - 0xA000) % 0x10000 < r.ram.length := by
        rw [hram]
        omega
      refine ⟨?_, ?_⟩
      · simp only [MBC2.read, wsub16, hmod]
        rw [if_neg (by omega), if_neg (by omega)]
        exact isSome_of_lt hidx
      · simp only [MBC2.writeRAM, wsub16, hmod, setChecked]
        split_ifs with he
        · simp
        · simp
  · -- MBC5
    intro rom r hr hlen a v
    obtain ⟨hrom, hram, hbank, hrbank⟩ := mbc5_reachable_wf hr
    rw [← hrom] at hlen
    constructor
    · intro ha
      have hmod : a % 0x10000 = a := Nat.mod_eq_of_lt (by omega)
      simp only [MBC5.read, wsub16, hmod]
      split_ifs with h4
      · exact isSome_of_lt (by omega)
      · exact isSome_of_lt (by omega)
    · intro ha1 ha2
      have hmod : a % 0x10000 = a := Nat.mod_eq_of_lt (by omega)
      have hidx : (0x2000 * r.ramBank + (a + 0x10000 - 0xA000) % 0x10000) %
          0x100000000 < r.ram.length := by
        rw [hram]
        omega
      refine ⟨?_, ?_⟩
      · simp only [MBC5.read, wsub16, hmod]
        rw [if_neg (by omega), if_neg (by omega)]
        exact isSome_of_lt hidx
      · simp only [MBC5.writeRAM, wsub16, hmod, setChecked]
        split_ifs with he
        · simp
        · simp
  · -- MBC3
    intro rom r hr hlen a v
    obtain ⟨hrom, hram, hrtc, hlrtc, hbank, -, -⟩ := mbc3_reachable_wf hr
    rw [← hrom] at hlen
    constructor
    · intro ha
      have hmod : a % 0x10000 = a := Nat.mod_eq_of_lt (by omega)
      simp only [MBC3.read, wsub16, hmod]
      split_ifs with h4
      · exact isSome_of_lt (by omega)
      · exact isSome_of_lt (by omega)
    · intro ha1 ha2 hsel
      have hmod : a % 0x10000 = a := Nat.mod_eq_of_lt (by omega)
      have hidx : ∀ hlow : ¬0x4 ≤ r.ramBank,
          (0x2000 * r.ramBank + (a + 0x10000 - 0xA000) % 0x10000) %
            0x100000000 < r.ram.length := by
        intro hlow
        rw [hram]
        omega
      refine ⟨?_, ?_⟩
      · simp only [MBC3.read, wsub16, hmod]
        rw [if_neg (by omega), if_neg (by omega)]
        split_ifs with hge hlat
        · exact isSome_of_lt (by omega)
        · exact isSome_of_lt (by omega)
        · exact isSome_of_lt (hidx hge)
      · simp only [MBC3.writeRAM, wsub16, hmod, setChecked]
        split_ifs with he hge hb hb
        · simp
        · exact absurd (show r.ramBank < r.rtc.length by omega) hb
        · simp
        · exact absurd (hidx hge) hb
        · simp

/-- C2 witness: the amended bounds at the initial MBC1 state with a
full-width 4 MiB ROM, reading address 0 and the RAM window. -/
theorem c2_bank_masking_amended_witness :
    ((MBC1.new (List.replicate 0x400000 0)).read 0).isSome = true ∧
    ((MBC1.new (List.replicate 0x400000 0)).read 0xA000).isSome = true := by
  have h := c2_bank_masking_amended.1 (List.replicate 0x400000 0) _
    MBC1.Reachable.init (by rw [List.length_replicate]) 0xA000 0
  have h0 := c2_bank_masking_amended.1 (List.replicate 0x400000 0) _
    MBC1.Reachable.init (by rw [List.length_replicate]) 0 0
  exact ⟨h0.1 (by norm_num), (h.2 (by norm_num) (by norm_num)).1⟩

end GoBoy
